import Mathlib

/-!
Verification of the draw2dpdf graphic context (`draw2dpdf/gc.go`).

The Go source is shallowly embedded in Lean.  All `float64` quantities of the
source are modelled as exact rationals: every floating-point computation the
embedded fragments perform (sums of multiples of `1/256`, halving such sums,
division of a 16-bit alpha by `0xFFFF`) stays well inside the 53-bit exact
range of IEEE double precision, so the rational model is bit-for-bit faithful.
Go `int32` arithmetic is modelled as `Int` with an explicit two's-complement
wrap where the source can overflow (the `<< 2` shift of `fUnitsToFloat64`).

Parts of the `draw2d` base package (the stack graphic context, the path
storage) are referenced by `gc.go` but are not part of the provided sources;
those definitions are modelled from the specification and carry a
`Modelled from the spec:` note.
-/

set_option autoImplicit false

/-- Two's-complement wrap of an integer into the `int32` range
`[-2^31, 2^31)`, modelling overflow of Go `int32` arithmetic. -/
def wrap32 (x : Int) : Int := (x + 2 ^ 31) % 2 ^ 32 - 2 ^ 31

/-- Embeds `fUnitsToFloat64` (gc.go:161-164): `scaled := x << 2` followed by
`float64(scaled/256) + float64(scaled%256)/256.0`.  The shift is `int32`
arithmetic, hence the wrap; Go `/` and `%` truncate toward zero with the
remainder taking the dividend's sign, hence `Int.tdiv` / `Int.tmod`. -/
def fUnitsToFloat64 (x : Int) : ℚ :=
  let scaled := wrap32 (x * 4)
  (scaled.tdiv 256 : ℚ) + (scaled.tmod 256 : ℚ) / 256

/-- A `truetype.Point`: coordinates in font units plus the flag word whose
lowest bit marks an on-curve point. -/
structure TPoint where
  X : Int
  Y : Int
  Flags : Nat
  deriving DecidableEq

/-- Embeds `pointToF64Point` (gc.go:169-171): convert both coordinates and
negate Y (font Y grows upward, document Y grows downward). -/
def pointToF64Point (p : TPoint) : ℚ × ℚ :=
  (fUnitsToFloat64 p.X, -fUnitsToFloat64 p.Y)

/-- One path segment.  Modelled from the spec: the `draw2d.PathStorage`
segment vocabulary used by the graphic context (`MoveTo`, `LineTo`,
`QuadCurveTo`), which lives in the `draw2d` base package outside the provided
sources. -/
inductive PathSeg where
  | moveTo (x y : ℚ)
  | lineTo (x y : ℚ)
  | quadCurveTo (cx cy x y : ℚ)
  deriving DecidableEq

/-- Modelled from the spec: a `draw2d.PathStorage` is an ordered sequence of
segments, built incrementally by the drawing operations. -/
abbrev PathStorage : Type := List PathSeg

/-- Modelled from the spec: `draw2d.NewPathStorage()` yields a fresh empty
path. -/
def NewPathStorage : PathStorage := ([] : List PathSeg)

/-- The loop of `drawContour` (gc.go:181-207), including the closing step
that runs when the point list is exhausted.  `q0X, q0Y` is the previous
(converted) point, `on0` its on-curve flag; `startX, startY` is the converted
first point of the contour. -/
def drawContourLoop (dx dy startX startY : ℚ) :
    List TPoint → ℚ → ℚ → Bool → List PathSeg
  | [], q0X, q0Y, on0 =>
    if on0 then
      [PathSeg.lineTo (startX + dx) (startY + dy)]
    else
      [PathSeg.quadCurveTo (q0X + dx) (q0Y + dy) (startX + dx) (startY + dy)]
  | p :: rest, q0X, q0Y, on0 =>
    let qX := (pointToF64Point p).1
    let qY := (pointToF64Point p).2
    let onC := p.Flags % 2 == 1
    let segs :=
      if onC then
        if on0 then
          [PathSeg.lineTo (qX + dx) (qY + dy)]
        else
          [PathSeg.quadCurveTo (q0X + dx) (q0Y + dy) (qX + dx) (qY + dy)]
      else
        if on0 then
          []
        else
          [PathSeg.quadCurveTo (q0X + dx) (q0Y + dy)
            ((q0X + qX) / 2 + dx) ((q0Y + qY) / 2 + dy)]
    segs ++ drawContourLoop dx dy startX startY rest qX qY onC

/-- Embeds `drawContour` (gc.go:174-207): emit a move-to at the first point
and trace the rest of the closed contour.  An empty point list is a no-op. -/
def drawContour (ps : List TPoint) (dx dy : ℚ) : List PathSeg :=
  match ps with
  | [] => []
  | p0 :: rest =>
    let startX := (pointToF64Point p0).1
    let startY := (pointToF64Point p0).2
    PathSeg.moveTo (startX + dx) (startY + dy)
      :: drawContourLoop dx dy startX startY rest startX startY true

/-- A loaded glyph outline: the flat point list and the end-offset list that
delimits its contours (`truetype.GlyphBuf.Point` / `.End`). -/
structure Glyph where
  points : List TPoint
  ends : List Nat
  deriving DecidableEq

/-- The font backend (external collaborator, `truetype.Font`): character to
glyph-index mapping, pairwise kerning and advance width at an integer scale,
and outline loading, which can fail (`none`). -/
structure Font where
  index : Char → Nat
  kerning : Int → Nat → Nat → Int
  advance : Int → Nat → Int
  load : Int → Nat → Option Glyph

/-- The contour sweep of `drawGlyph` (gc.go:213-217): `e0 := 0`, then for each
`e1` of the end-offset list trace `Point[e0:e1]` and set `e0 := e1`. -/
def drawGlyphSegs (pts : List TPoint) : Nat → List Nat → ℚ → ℚ → List PathSeg
  | _, [], _, _ => []
  | e0, e1 :: rest, dx, dy =>
    drawContour ((pts.drop e0).take (e1 - e0)) dx dy
      ++ drawGlyphSegs pts e1 rest dx dy

/-- A color as seen through Go's `color.Color.RGBA()`: four channels in
`0..65535`. -/
structure Color where
  r : Nat
  g : Nat
  b : Nat
  a : Nat
  deriving DecidableEq

/-- The constant `c255 = 255.0 / 65535.0` (gc.go:26). -/
def c255 : ℚ := 255 / 65535

/-- Embeds `rgb` (gc.go:63-66): each channel is multiplied by `c255` and
truncated to an integer (the channels are non-negative, so Go's toward-zero
truncation is the floor). -/
def rgb (c : Color) : Int × Int × Int :=
  (⌊(c.r : ℚ) * c255⌋, ⌊(c.g : ℚ) * c255⌋, ⌊(c.b : ℚ) * c255⌋)

/-- Modelled from the spec: the `draw2d` fill rule, nonzero-winding or
even-odd, with its `UseNonZeroWinding` test. -/
inductive FillRule where
  | evenOdd
  | winding
  deriving DecidableEq

def FillRule.useNonZeroWinding : FillRule → Bool
  | .evenOdd => false
  | .winding => true

/-- Modelled from the spec: the `draw2d` line-cap values. -/
inductive Cap where
  | roundCap
  | buttCap
  | squareCap
  deriving DecidableEq

/-- The `caps` map (gc.go:34-37). -/
def caps : Cap → String
  | .roundCap => "round"
  | .buttCap => "butt"
  | .squareCap => "square"

/-- Modelled from the spec: the `draw2d` line-join values. -/
inductive Join where
  | roundJoin
  | bevelJoin
  | miterJoin
  deriving DecidableEq

/-- The `joins` map (gc.go:38-42). -/
def joins : Join → String
  | .roundJoin => "round"
  | .bevelJoin => "bevel"
  | .miterJoin => "miter"

/-- A command received by the document handle (`gofpdf.Fpdf`).  The
`drawPath` entry records, besides the style token, the alpha value in effect
in the handle at the moment the draw command is issued. -/
inductive PdfCmd where
  | transformBegin
  | transformEnd
  | setLineWidth (w : ℚ)
  | setDrawColor (c : Int × Int × Int)
  | setFillColor (c : Int × Int × Int)
  | setTextColor (c : Int × Int × Int)
  | setLineCapStyle (s : String)
  | setLineJoinStyle (s : String)
  | setDashPattern (dash : List ℚ) (offset : ℚ)
  | setAlpha (a : ℚ) (blend : String)
  | convertPaths (ps : List PathStorage)
  | drawPath (style : String) (alpha : ℚ)
  deriving DecidableEq

/-- The document handle: its cached alpha/blend-mode state plus the log of
commands it has received, in order. -/
structure Pdf where
  alpha : ℚ
  blendMode : String
  cmds : List PdfCmd
  deriving DecidableEq

/-- Append one command to the document handle's log. -/
def Pdf.emit (p : Pdf) (c : PdfCmd) : Pdf :=
  { p with cmds := p.cmds ++ [c] }

/-- Modelled from the spec: the mutable drawing state of
`draw2d.StackGraphicContext.Current` — paint settings, font state, derived
glyph scale and the in-progress path. -/
structure ContextStack where
  path : PathStorage
  lineWidth : ℚ
  dash : List ℚ
  dashOffset : ℚ
  strokeColor : Color
  fillColor : Color
  fillRule : FillRule
  cap : Cap
  join : Join
  fontSize : ℚ
  font : Option Font
  scale : ℚ

/-- A log entry produced by `log.Println` in the string-layout code: either
the (dead) font-load failure of `CreateStringPath` or a glyph-load failure
of `drawGlyph`. -/
inductive LogMsg where
  | fontLoadErr
  | glyphLoadErr (index : Nat)
  deriving DecidableEq

/-- The pdf graphic context (gc.go:84-89): the embedded stack graphic context
(current state plus the saved stack), the document handle, the DPI, and the
log output. -/
structure GraphicContext where
  current : ContextStack
  stack : List ContextStack
  pdf : Pdf
  dpi : Int
  logMsgs : List LogMsg

/-- Truncation of a rational toward zero, modelling Go's `int32(f)` for a
`float64` value in range. -/
def truncQ (q : ℚ) : Int := if q < 0 then ⌈q⌉ else ⌊q⌋

/-- Embeds `recalc` (gc.go:127-130):
`Scale = FontSize * float64(DPI) * (64.0/72.0) / 3.0`. -/
def GraphicContext.recalc (gc : GraphicContext) : GraphicContext :=
  { gc with current := { gc.current with
      scale := gc.current.fontSize * (gc.dpi : ℚ) * (64 / 72) / 3 } }

/-- Embeds `SetFontSize` (gc.go:375-378). -/
def GraphicContext.setFontSize (gc : GraphicContext) (fontSize : ℚ) :
    GraphicContext :=
  ({ gc with current := { gc.current with fontSize := fontSize } }).recalc

/-- Embeds `SetLineWidth` (gc.go:387-390): record it in the state and
forward it to the document handle. -/
def GraphicContext.setLineWidth (gc : GraphicContext) (w : ℚ) :
    GraphicContext :=
  { gc with current := { gc.current with lineWidth := w },
            pdf := gc.pdf.emit (.setLineWidth w) }

/-- Embeds `SetStrokeColor` (gc.go:329-332). -/
def GraphicContext.setStrokeColor (gc : GraphicContext) (c : Color) :
    GraphicContext :=
  { gc with current := { gc.current with strokeColor := c },
            pdf := gc.pdf.emit (.setDrawColor (rgb c)) }

/-- Embeds `SetFillColor` (gc.go:335-339): sets both the fill and the text
color of the document handle. -/
def GraphicContext.setFillColor (gc : GraphicContext) (c : Color) :
    GraphicContext :=
  { gc with current := { gc.current with fillColor := c },
            pdf := (gc.pdf.emit (.setFillColor (rgb c))).emit
                     (.setTextColor (rgb c)) }

/-- Modelled from the spec: `draw2d.StackGraphicContext.SetFillRule` only
updates the local state (the rule is applied at draw time via the style
token). -/
def GraphicContext.setFillRule (gc : GraphicContext) (r : FillRule) :
    GraphicContext :=
  { gc with current := { gc.current with fillRule := r } }

/-- Embeds `SetLineCap` (gc.go:393-396). -/
def GraphicContext.setLineCap (gc : GraphicContext) (c : Cap) :
    GraphicContext :=
  { gc with current := { gc.current with cap := c },
            pdf := gc.pdf.emit (.setLineCapStyle (caps c)) }

/-- Embeds `SetLineJoin` (gc.go:399-402). -/
def GraphicContext.setLineJoin (gc : GraphicContext) (j : Join) :
    GraphicContext :=
  { gc with current := { gc.current with join := j },
            pdf := gc.pdf.emit (.setLineJoinStyle (joins j)) }

/-- Embeds `SetLineDash` (gc.go:381-384). -/
def GraphicContext.setLineDash (gc : GraphicContext) (dash : List ℚ)
    (offset : ℚ) : GraphicContext :=
  { gc with current := { gc.current with dash := dash, dashOffset := offset },
            pdf := gc.pdf.emit (.setDashPattern dash offset) }

/-- Embeds `Save` (gc.go:436-439): push a copy of the current state
(modelled from the spec, as `StackGraphicContext.Save` is outside the
provided sources) and open a transform block in the document handle. -/
def GraphicContext.save (gc : GraphicContext) : GraphicContext :=
  { gc with stack := gc.current :: gc.stack,
            pdf := gc.pdf.emit .transformBegin }

/-- Embeds `Restore` (gc.go:443-458): close the transform block, pop the
state stack (modelled from the spec), then re-apply the side-effecting
setters in source order — font size, line width, stroke color, fill color,
fill rule, line cap, line join.  Font data, dash pattern and path are
deliberately not re-applied (the commented-out lines of the source). -/
def GraphicContext.restore (gc : GraphicContext) : GraphicContext :=
  let gc1 := { gc with pdf := gc.pdf.emit .transformEnd }
  let gc2 :=
    match gc1.stack with
    | [] => gc1
    | c :: rest => { gc1 with current := c, stack := rest }
  let c := gc2.current
  ((((((gc2.setFontSize c.fontSize).setLineWidth c.lineWidth).setStrokeColor
      c.strokeColor).setFillColor c.fillColor).setFillRule
      c.fillRule).setLineCap c.cap).setLineJoin c.join

/-- The constant `alphaMax = float64(0xFFFF)` (gc.go:311). -/
def alphaMax : ℚ := 65535

/-- Embeds `draw` (gc.go:314-324): append the current path to the explicitly
passed paths, convert them for the document handle, re-send the alpha only
when it differs from the handle's cached value, then issue the draw command
with the given style token. -/
def GraphicContext.draw (gc : GraphicContext) (style : String) (alpha : Nat)
    (paths : List PathStorage) : GraphicContext :=
  let allPaths := paths ++ [gc.current.path]
  let p1 := gc.pdf.emit (.convertPaths allPaths)
  let a : ℚ := (alpha : ℚ) / alphaMax
  let p2 :=
    if a = p1.alpha then p1
    else { p1.emit (.setAlpha a p1.blendMode) with alpha := a }
  { gc with pdf := p2.emit (.drawPath style p2.alpha) }

/-- Embeds `Stroke` (gc.go:275-279): draw with style `"D"` at the stroke
color's alpha, then reset the current path. -/
def GraphicContext.stroke (gc : GraphicContext) (paths : List PathStorage) :
    GraphicContext :=
  let gc1 := gc.draw "D" gc.current.strokeColor.a paths
  { gc1 with current := { gc1.current with path := NewPathStorage } }

/-- Embeds `Fill` (gc.go:282-290): style `"F"`, with a `"*"` suffix when the
fill rule is not nonzero-winding, at the fill color's alpha; then reset the
current path. -/
def GraphicContext.fill (gc : GraphicContext) (paths : List PathStorage) :
    GraphicContext :=
  let style := "F" ++ (if gc.current.fillRule.useNonZeroWinding then "" else "*")
  let gc1 := gc.draw style gc.current.fillColor.a paths
  { gc1 with current := { gc1.current with path := NewPathStorage } }

/-- Embeds `FillStroke` (gc.go:293-307): one combined `"FD"+rule` draw when
the stroke and fill alphas agree, otherwise a `"F"+rule` draw followed by a
`"S"` draw, each at its own alpha; then reset the current path. -/
def GraphicContext.fillStroke (gc : GraphicContext)
    (paths : List PathStorage) : GraphicContext :=
  let rule := if gc.current.fillRule.useNonZeroWinding then "" else "*"
  let alphaS := gc.current.strokeColor.a
  let alphaF := gc.current.fillColor.a
  let gc1 :=
    if alphaS = alphaF then gc.draw ("FD" ++ rule) alphaF paths
    else (gc.draw ("F" ++ rule) alphaF paths).draw "S" alphaS paths
  { gc1 with current := { gc1.current with path := NewPathStorage } }

/-- Embeds `loadCurrentFont` (gc.go:270-272): returns the current font and a
`nil` error, unconditionally. -/
def GraphicContext.loadCurrentFont (gc : GraphicContext) :
    Option Font × Option String :=
  (gc.current.font, none)

/-- Embeds `drawGlyph` (gc.go:209-219): load the outline at the truncated
current scale; on failure report the error, otherwise trace every contour of
the glyph into the current path.  The font argument is the current font,
handed down by `CreateStringPath`. -/
def GraphicContext.drawGlyph (gc : GraphicContext) (font : Font)
    (glyph : Nat) (dx dy : ℚ) : Option GraphicContext :=
  match font.load (truncQ gc.current.scale) glyph with
  | none => none
  | some g =>
    some { gc with current := { gc.current with
             path := gc.current.path ++ drawGlyphSegs g.points 0 g.ends dx dy } }

/-- The per-rune loop of `CreateStringPath` (gc.go:230-243): add kerning when
a previous glyph exists, draw the glyph (logging and aborting with
`startx - x` on failure), then advance the cursor by the glyph's advance
width. -/
def createStringPathLoop (font : Font) :
    List Char → GraphicContext → ℚ → ℚ → ℚ → Nat → Bool →
    GraphicContext × ℚ
  | [], gc, x, _, startx, _, _ => (gc, x - startx)
  | c :: rest, gc, x, y, startx, prev, hasPrev =>
    let index := font.index c
    let x1 :=
      if hasPrev then
        x + fUnitsToFloat64 (font.kerning (truncQ gc.current.scale) prev index)
      else x
    match gc.drawGlyph font index x1 y with
    | none =>
      ({ gc with logMsgs := gc.logMsgs ++ [LogMsg.glyphLoadErr index] },
       startx - x1)
    | some gc1 =>
      let x2 := x1 + fUnitsToFloat64 (font.advance (truncQ gc1.current.scale) index)
      createStringPathLoop font rest gc1 x2 y startx index true

/-- Embeds `CreateStringPath` (gc.go:222-244).  The error branch of
`loadCurrentFont` logs and returns `0.0`; with a font present the rune loop
runs with `startx := x` and no previous glyph.  A `nil` font is never
detected: with a non-empty string Go would dereference the nil font
(a panic, modelled as `none`); with an empty string the loop body never runs
and `x - startx = 0` is returned. -/
def GraphicContext.createStringPath (gc : GraphicContext) (s : List Char)
    (x y : ℚ) : Option (GraphicContext × ℚ) :=
  match gc.loadCurrentFont with
  | (_, some _) =>
    some ({ gc with logMsgs := gc.logMsgs ++ [LogMsg.fontLoadErr] }, 0)
  | (fontOpt, none) =>
    match fontOpt with
    | some font => some (createStringPathLoop font s gc x y x 0 false)
    | none =>
      match s with
      | [] => some (gc, 0)
      | _ :: _ => none

/-- Embeds `FillStringAt` (gc.go:252-256): lay the string out as a path,
fill it, return the width. -/
def GraphicContext.fillStringAt (gc : GraphicContext) (s : List Char)
    (x y : ℚ) : Option (GraphicContext × ℚ) :=
  match gc.createStringPath s x y with
  | none => none
  | some (gc1, width) => some (gc1.fill [], width)

/-- Embeds `StrokeStringAt` (gc.go:266-268): it returns
`gc.CreateStringPath(text, x, y)` directly. -/
def GraphicContext.strokeStringAt (gc : GraphicContext) (s : List Char)
    (x y : ℚ) : Option (GraphicContext × ℚ) :=
  gc.createStringPath s x y

/-- Embeds `FillString` (gc.go:247-249). -/
def GraphicContext.fillString (gc : GraphicContext) (s : List Char) :
    Option (GraphicContext × ℚ) :=
  gc.fillStringAt s 0 0

/-- Embeds `StrokeString` (gc.go:260-262). -/
def GraphicContext.strokeString (gc : GraphicContext) (s : List Char) :
    Option (GraphicContext × ℚ) :=
  gc.strokeStringAt s 0 0

/-- The kerning contribution, already converted by `fUnitsToFloat64`, paid
when a glyph with index `i` follows the layout state `st` (`none` when no
previous glyph exists). -/
def kernAt (font : Font) (sc : Int) (st : Option Nat) (i : Nat) : ℚ :=
  match st with
  | none => 0
  | some p => fUnitsToFloat64 (font.kerning sc p i)

/-- The layout state left after processing the runes `s` starting from state
`st`: the index of the last glyph, or `st` when `s` is empty. -/
def lastState (font : Font) (st : Option Nat) : List Char → Option Nat
  | [] => st
  | c :: rest => lastState font (some (font.index c)) rest

/-- The total horizontal advance of the runes `s` laid out from state `st`:
for each glyph its converted advance width plus, when a previous glyph
exists, the converted kerning adjustment for the pair. -/
def stringAdvance (font : Font) (sc : Int) (st : Option Nat) :
    List Char → ℚ
  | [] => 0
  | c :: rest =>
    kernAt font sc st (font.index c)
      + fUnitsToFloat64 (font.advance sc (font.index c))
      + stringAdvance font sc (some (font.index c)) rest

/-- Is a document-handle command a `drawPath` command? -/
def isDrawPath : PdfCmd → Bool
  | .drawPath _ _ => true
  | _ => false

/-- The draw commands of a document-handle log, in order. -/
def drawPathCmds (l : List PdfCmd) : List PdfCmd :=
  l.filter isDrawPath

/-! ### Concrete fixtures for witnesses -/

/-- A concrete color. -/
def testColor : Color := ⟨0, 0, 0, 65535⟩

/-- A glyph with no contours; loading it always succeeds. -/
def emptyGlyph : Glyph := ⟨[], []⟩

/-- A concrete font: glyph `A` (index 65) has a raw advance of 640 font
units (which converts to 10), glyph `B` (index 66) one of 512 (converting
to 8), and the pair `A`→`B` kerns by 128 raw units (converting to 2);
every outline loads. -/
def testFont : Font where
  index := fun c => c.toNat
  kerning := fun _ p i => if p = 65 ∧ i = 66 then 128 else 0
  advance := fun _ i => if i = 65 then 640 else if i = 66 then 512 else 256
  load := fun _ _ => some emptyGlyph

/-- Like `testFont`, except that loading the outline of glyph `C`
(index 67) fails. -/
def testFont2 : Font where
  index := fun c => c.toNat
  kerning := fun _ p i => if p = 65 ∧ i = 66 then 128 else 0
  advance := fun _ i => if i = 65 then 640 else if i = 66 then 512 else 256
  load := fun _ i => if i = 67 then none else some emptyGlyph

/-- A concrete drawing state holding `testFont`. -/
def testContext : ContextStack :=
  ⟨NewPathStorage, 1, [], 0, testColor, testColor, FillRule.winding,
   Cap.roundCap, Join.roundJoin, 10, some testFont, 0⟩

/-- A concrete graphic context holding `testFont`. -/
def testGC : GraphicContext :=
  ⟨testContext, [], ⟨1, "Normal", []⟩, 72, []⟩

/-- A concrete graphic context holding `testFont2`. -/
def testGC2 : GraphicContext :=
  ⟨{ testContext with font := some testFont2 }, [], ⟨1, "Normal", []⟩, 72, []⟩

/-- A concrete graphic context with no font assigned. -/
def testGCNoFont : GraphicContext :=
  ⟨{ testContext with font := none }, [], ⟨1, "Normal", []⟩, 72, []⟩

/-- The context reached after laying out the prefix `AB` with `testGC2`. -/
def gcPre2 : GraphicContext :=
  ((testGC2.createStringPath [Char.ofNat 65, Char.ofNat 66] 0 0).getD
    (testGC2, 0)).1

/-- The width returned for the prefix `AB` with `testGC2`. -/
def wPre2 : ℚ :=
  ((testGC2.createStringPath [Char.ofNat 65, Char.ofNat 66] 0 0).getD
    (testGC2, 0)).2

/-- The result of stroking the one-glyph string `A` with `testGC`. -/
def strokeRes : GraphicContext × ℚ :=
  (testGC.strokeStringAt [Char.ofNat 65] 0 0).getD (testGC, 0)

/-- The result of filling the one-glyph string `A` with `testGC`. -/
def fillRes : GraphicContext × ℚ :=
  (testGC.fillStringAt [Char.ofNat 65] 0 0).getD (testGC, 0)

/-! ### Theorems -/

/-- C1 (amended): for every `int32` input `x` whose 2-bit shift does not
overflow, i.e. `-2^29 ≤ x < 2^29`, `fUnitsToFloat64` returns exactly the
rational `x*4/256`, via toward-zero integer division with a remainder whose
sign follows the dividend; outside that range the shift wraps modulo
`2^32`. -/
theorem fUnitsToFloat64_exact (x : Int) (h1 : -(2 ^ 29) ≤ x)
    (h2 : x < 2 ^ 29) :
    fUnitsToFloat64 x = (x * 4 : ℚ) / 256 := by
  have hw : wrap32 (x * 4) = x * 4 := by
    unfold wrap32
    have h0 : (0 : Int) ≤ x * 4 + 2 ^ 31 := by omega
    have h3 : x * 4 + 2 ^ 31 < 2 ^ 32 := by omega
    rw [Int.emod_eq_of_lt h0 h3]
    ring
  simp only [fUnitsToFloat64, hw]
  have hd : (x * 4).tmod 256 + 256 * ((x * 4).tdiv 256) = x * 4 :=
    Int.tmod_add_tdiv _ _
  have hq : ((x * 4).tmod 256 : ℚ) + 256 * ((x * 4).tdiv 256 : ℚ)
      = ((x : ℚ) * 4) := by
    exact_mod_cast congrArg (Int.cast : Int → ℚ) hd
  field_simp
  linarith

/-- C1 witness: the exactness theorem applied at a positive and at a
negative concrete input. -/
theorem fUnitsToFloat64_exact_witness :
    fUnitsToFloat64 640 = (640 * 4 : ℚ) / 256 ∧
    fUnitsToFloat64 (-3) = ((-3 : Int) * 4 : ℚ) / 256 := by
  constructor
  · exact fUnitsToFloat64_exact 640 (by norm_num) (by norm_num)
  · exact_mod_cast fUnitsToFloat64_exact (-3) (by norm_num) (by norm_num)

/-- Helper: evaluation of `fUnitsToFloat64` by supplying the wrapped value
and its toward-zero quotient and remainder. -/
theorem fUnitsToFloat64_eval (x s q r : Int) (h : wrap32 (x * 4) = s)
    (hq : s.tdiv 256 = q) (hr : s.tmod 256 = r) :
    fUnitsToFloat64 x = (q : ℚ) + (r : ℚ) / 256 := by
  simp only [fUnitsToFloat64, h, hq, hr]

/-- C1 counterexample: `x = 2^29 = 536870912` is a non-negative `int32`, yet
the 2-bit shift overflows `int32` and the function returns `-8388608`
instead of the exact rational `x*4/256 = 8388608`. -/
theorem fUnitsToFloat64_wraps :
    (0 : Int) ≤ 536870912 ∧
    fUnitsToFloat64 536870912 = -8388608 ∧
    fUnitsToFloat64 536870912 ≠ (536870912 * 4 : ℚ) / 256 := by
  have hv := fUnitsToFloat64_eval 536870912 (-2147483648) (-8388608) 0
    (by decide) (by decide) (by decide)
  refine ⟨by norm_num, ?_, ?_⟩ <;> rw [hv] <;> norm_num

/-- Helper for C4: with an on-curve running state and every remaining point
flagged on-curve, the contour loop emits one line-to per point and closes
with a line-to back to the start point. -/
theorem drawContourLoop_all_on (dx dy sX sY : ℚ) :
    ∀ l : List TPoint, (∀ p ∈ l, p.Flags % 2 = 1) →
    ∀ q0X q0Y : ℚ,
      drawContourLoop dx dy sX sY l q0X q0Y true =
        l.map (fun p => PathSeg.lineTo ((pointToF64Point p).1 + dx)
            ((pointToF64Point p).2 + dy))
          ++ [PathSeg.lineTo (sX + dx) (sY + dy)] := by
  intro l
  induction l with
  | nil =>
    intro _ q0X q0Y
    simp [drawContourLoop]
  | cons p rest ih =>
    intro h q0X q0Y
    have hp : p.Flags % 2 = 1 := h p (List.mem_cons_self p rest)
    have hr : ∀ q ∈ rest, q.Flags % 2 = 1 := fun q hq => h q (by simp [hq])
    simp only [drawContourLoop, hp, List.map_cons]
    simp [ih hr]

/-- C4: a non-empty contour whose points are all flagged on-curve yields
exactly one move-to at the first point, one line-to for each of the
remaining points in order, and a final closing line-to back to the start,
with every coordinate offset by `(dx, dy)` and no curve segments. -/
theorem drawContour_all_on (p0 : TPoint) (rest : List TPoint) (dx dy : ℚ)
    (h : ∀ p ∈ p0 :: rest, p.Flags % 2 = 1) :
    drawContour (p0 :: rest) dx dy =
      PathSeg.moveTo ((pointToF64Point p0).1 + dx)
          ((pointToF64Point p0).2 + dy)
        :: (rest.map (fun p => PathSeg.lineTo ((pointToF64Point p).1 + dx)
              ((pointToF64Point p).2 + dy))
            ++ [PathSeg.lineTo ((pointToF64Point p0).1 + dx)
                  ((pointToF64Point p0).2 + dy)]) := by
  have hr : ∀ p ∈ rest, p.Flags % 2 = 1 := fun q hq => h q (by simp [hq])
  simp only [drawContour]
  rw [drawContourLoop_all_on dx dy _ _ rest hr]

/-- C4 witness: the all-on-curve theorem applied to a concrete triangle
contour at offset `(5, 7)`. -/
theorem drawContour_all_on_witness :
    drawContour [⟨0, 0, 1⟩, ⟨256, 0, 1⟩, ⟨0, 256, 3⟩] 5 7 =
      [PathSeg.moveTo 5 7, PathSeg.lineTo 9 7, PathSeg.lineTo 5 3,
       PathSeg.lineTo 5 7] := by
  have h := drawContour_all_on ⟨0, 0, 1⟩ [⟨256, 0, 1⟩, ⟨0, 256, 3⟩] 5 7
    (by decide)
  have hv0 : fUnitsToFloat64 0 = 0 := by
    have := fUnitsToFloat64_eval 0 0 0 0 (by decide) (by decide) (by decide)
    simpa using this
  have hv256 : fUnitsToFloat64 256 = 4 := by
    have := fUnitsToFloat64_eval 256 1024 4 0 (by decide) (by decide)
      (by decide)
    simpa using this
  rw [h]
  norm_num [pointToF64Point, hv0, hv256]

/-- C5: when the loop meets an off-curve point while the previous point was
also off-curve, it emits exactly one quadratic-curve-to whose control point
is the previous off-curve point and whose endpoint is the implied midpoint
`((prevX+curX)/2, (prevY+curY)/2)`, both offset by `(dx, dy)`; the current
point becomes the pending control point of the continuing loop. -/
theorem drawContourLoop_off_off (dx dy sX sY q0X q0Y : ℚ) (p : TPoint)
    (rest : List TPoint) (h : p.Flags % 2 = 0) :
    drawContourLoop dx dy sX sY (p :: rest) q0X q0Y false =
      PathSeg.quadCurveTo (q0X + dx) (q0Y + dy)
          ((q0X + (pointToF64Point p).1) / 2 + dx)
          ((q0Y + (pointToF64Point p).2) / 2 + dy)
        :: drawContourLoop dx dy sX sY rest (pointToF64Point p).1
             (pointToF64Point p).2 false := by
  have hb : (p.Flags % 2 == 1) = false := by simp [h]
  simp [drawContourLoop, hb]

/-- C5 witness: the off-off theorem applied at a concrete point with a
concrete pending control point. -/
theorem drawContourLoop_off_off_witness :
    drawContourLoop 0 0 0 0 [⟨256, 0, 0⟩] 1 1 false =
      [PathSeg.quadCurveTo 1 1 (5 / 2) (1 / 2),
       PathSeg.quadCurveTo 4 0 0 0] := by
  have h := drawContourLoop_off_off 0 0 0 0 1 1 ⟨256, 0, 0⟩ [] (by decide)
  have hv0 : fUnitsToFloat64 0 = 0 := by
    have := fUnitsToFloat64_eval 0 0 0 0 (by decide) (by decide) (by decide)
    simpa using this
  have hv256 : fUnitsToFloat64 256 = 4 := by
    have := fUnitsToFloat64_eval 256 1024 4 0 (by decide) (by decide)
      (by decide)
    simpa using this
  rw [h]
  norm_num [pointToF64Point, drawContourLoop, hv0, hv256]

/-- Helper: a successful `drawGlyph` only appends the glyph's contours to
the current path. -/
theorem drawGlyph_some (gc : GraphicContext) (font : Font) (glyph : Nat)
    (dx dy : ℚ) (gc1 : GraphicContext)
    (h : gc.drawGlyph font glyph dx dy = some gc1) :
    ∃ g, font.load (truncQ gc.current.scale) glyph = some g ∧
      gc1 = { gc with current := { gc.current with
        path := gc.current.path ++ drawGlyphSegs g.points 0 g.ends dx dy } } := by
  unfold GraphicContext.drawGlyph at h
  split at h
  · exact absurd h (by simp)
  · next g heq =>
    exact ⟨g, heq, (Option.some.inj h).symm⟩

/-- Helper: the rune loop of `CreateStringPath` touches only the current
path and the log; the document handle and the rest of the drawing state are
untouched. -/
theorem createStringPathLoop_preserves (font : Font) :
    ∀ (s : List Char) (gc : GraphicContext) (x y startx : ℚ) (prev : Nat)
      (hp : Bool),
      (createStringPathLoop font s gc x y startx prev hp).1.pdf = gc.pdf ∧
      (createStringPathLoop font s gc x y startx prev hp).1.current.scale
        = gc.current.scale ∧
      (createStringPathLoop font s gc x y startx prev hp).1.current.font
        = gc.current.font ∧
      (createStringPathLoop font s gc x y startx prev hp).1.current.fillRule
        = gc.current.fillRule ∧
      (createStringPathLoop font s gc x y startx prev hp).1.current.fillColor
        = gc.current.fillColor ∧
      (createStringPathLoop font s gc x y startx prev hp).1.current.strokeColor
        = gc.current.strokeColor := by
  intro s
  induction s with
  | nil =>
    intro gc x y startx prev hp
    simp [createStringPathLoop]
  | cons c rest ih =>
    intro gc x y startx prev hp
    simp only [createStringPathLoop]
    split
    · simp
    · next gc1 heq =>
      obtain ⟨g, -, hgc1⟩ := drawGlyph_some _ _ _ _ _ _ heq
      exact ⟨(ih gc1 _ y startx (font.index c) true).1.trans (by rw [hgc1]),
             (ih gc1 _ y startx (font.index c) true).2.1.trans (by rw [hgc1]),
             (ih gc1 _ y startx (font.index c) true).2.2.1.trans (by rw [hgc1]),
             (ih gc1 _ y startx (font.index c) true).2.2.2.1.trans
               (by rw [hgc1]),
             (ih gc1 _ y startx (font.index c) true).2.2.2.2.1.trans
               (by rw [hgc1]),
             (ih gc1 _ y startx (font.index c) true).2.2.2.2.2.trans
               (by rw [hgc1])⟩

/-- Helper: when every glyph of `s` loads, the rune loop returns
`x - startx` plus the total advance of `s` from the given kerning state. -/
theorem createStringPathLoop_success (font : Font) :
    ∀ (s : List Char) (gc : GraphicContext) (x y startx : ℚ) (prev : Nat)
      (hp : Bool),
      (∀ a ∈ s, (font.load (truncQ gc.current.scale) (font.index a)).isSome
        = true) →
      (createStringPathLoop font s gc x y startx prev hp).2
        = x - startx + stringAdvance font (truncQ gc.current.scale)
            (if hp then some prev else none) s := by
  intro s
  induction s with
  | nil =>
    intro gc x y startx prev hp _
    simp [createStringPathLoop, stringAdvance]
  | cons c rest ih =>
    intro gc x y startx prev hp hl
    have hc : (font.load (truncQ gc.current.scale) (font.index c)).isSome
        = true := hl c (by simp)
    have hr : ∀ a ∈ rest,
        (font.load (truncQ gc.current.scale) (font.index a)).isSome = true :=
      fun a ha => hl a (by simp [ha])
    simp only [createStringPathLoop]
    split
    · next heq =>
      exfalso
      obtain ⟨g, hg⟩ := Option.isSome_iff_exists.mp hc
      unfold GraphicContext.drawGlyph at heq
      rw [hg] at heq
      simp at heq
    · next gc1 heq =>
      obtain ⟨g, hg, hgc1⟩ := drawGlyph_some _ _ _ _ _ _ heq
      have hscale : gc1.current.scale = gc.current.scale := by rw [hgc1]
      rw [ih gc1 _ y startx (font.index c) true (by rw [hscale]; exact hr),
        hscale]
      cases hp <;> simp [stringAdvance, kernAt] <;> ring

/-- Helper: when the outline is unavailable, `drawGlyph` fails. -/
theorem drawGlyph_load_none (gc : GraphicContext) (font : Font) (glyph : Nat)
    (h : font.load (truncQ gc.current.scale) glyph = none) (dx dy : ℚ) :
    gc.drawGlyph font glyph dx dy = none := by
  unfold GraphicContext.drawGlyph
  rw [h]

/-- Helper: when the outline loads, `drawGlyph` appends its contours. -/
theorem drawGlyph_load_some (gc : GraphicContext) (font : Font) (glyph : Nat)
    (g : Glyph) (h : font.load (truncQ gc.current.scale) glyph = some g)
    (dx dy : ℚ) :
    gc.drawGlyph font glyph dx dy
      = some { gc with current := { gc.current with
          path := gc.current.path ++ drawGlyphSegs g.points 0 g.ends dx dy } } := by
  unfold GraphicContext.drawGlyph
  rw [h]

/-- Helper: when every glyph of `sPre` loads and the glyph of `c` does not,
the rune loop on `sPre ++ c :: sPost` produces the state reached after
`sPre` with one glyph-load log entry appended, and the width
`startx - cursorX` where the cursor has consumed `sPre`'s advance plus the
kerning into `c`; the trailing `sPost` is never processed. -/
theorem createStringPathLoop_abort (font : Font) (c : Char)
    (sPost : List Char) :
    ∀ (sPre : List Char) (gc : GraphicContext) (x y startx : ℚ) (prev : Nat)
      (hp : Bool),
      (∀ a ∈ sPre, (font.load (truncQ gc.current.scale) (font.index a)).isSome
        = true) →
      font.load (truncQ gc.current.scale) (font.index c) = none →
      createStringPathLoop font (sPre ++ c :: sPost) gc x y startx prev hp =
        ({ (createStringPathLoop font sPre gc x y startx prev hp).1 with
            logMsgs :=
              (createStringPathLoop font sPre gc x y startx prev hp).1.logMsgs
                ++ [LogMsg.glyphLoadErr (font.index c)] },
         startx - (x + stringAdvance font (truncQ gc.current.scale)
              (if hp then some prev else none) sPre
            + kernAt font (truncQ gc.current.scale)
                (lastState font (if hp then some prev else none) sPre)
                (font.index c))) := by
  intro sPre
  induction sPre with
  | nil =>
    intro gc x y startx prev hp hl hfail
    simp only [List.nil_append, createStringPathLoop,
      drawGlyph_load_none gc font (font.index c) hfail]
    cases hp <;> simp [stringAdvance, kernAt, lastState]
  | cons a rest ih =>
    intro gc x y startx prev hp hl hfail
    have ha := hl a (by simp)
    obtain ⟨g, hg⟩ := Option.isSome_iff_exists.mp ha
    have hr : ∀ q ∈ rest,
        (font.load (truncQ gc.current.scale) (font.index q)).isSome = true :=
      fun q hq => hl q (by simp [hq])
    simp only [List.cons_append, createStringPathLoop,
      drawGlyph_load_some gc font (font.index a) g hg, List.append_eq]
    rw [ih]
    · cases hp <;>
        simp [stringAdvance, kernAt, lastState, Prod.ext_iff] <;> ring_nf
    · exact hr
    · exact hfail

/-- Helper: with a font assigned, `CreateStringPath` is the rune loop run
with `startx := x`, no previous glyph. -/
theorem createStringPath_eq_loop (gc : GraphicContext) (font : Font)
    (s : List Char) (x y : ℚ) (hf : gc.current.font = some font) :
    gc.createStringPath s x y
      = some (createStringPathLoop font s gc x y x 0 false) := by
  unfold GraphicContext.createStringPath GraphicContext.loadCurrentFont
  rw [hf]

/-- Helper: a successful `CreateStringPath` call either had an empty string
and no font, or ran the rune loop of the assigned font. -/
theorem createStringPath_cases (gc : GraphicContext) (s : List Char)
    (x y : ℚ) (gc1 : GraphicContext) (w : ℚ)
    (h : gc.createStringPath s x y = some (gc1, w)) :
    (gc1 = gc ∧ s = [] ∧ w = 0) ∨
    ∃ font, gc.current.font = some font ∧
      createStringPathLoop font s gc x y x 0 false = (gc1, w) := by
  unfold GraphicContext.createStringPath GraphicContext.loadCurrentFont at h
  rcases hfont : gc.current.font with _ | font <;> rw [hfont] at h
  · cases s with
    | nil =>
      left
      have h2 := Option.some.inj h
      exact ⟨(congrArg Prod.fst h2).symm, rfl, (congrArg Prod.snd h2).symm⟩
    | cons a s2 => exact absurd h (by simp)
  · exact Or.inr ⟨font, rfl, Option.some.inj h⟩

/-- Helper: the rune loop appends only glyph-load log entries. -/
theorem createStringPathLoop_logs (font : Font) :
    ∀ (s : List Char) (gc : GraphicContext) (x y startx : ℚ) (prev : Nat)
      (hp : Bool),
      ∃ l, (createStringPathLoop font s gc x y startx prev hp).1.logMsgs
          = gc.logMsgs ++ l ∧ LogMsg.fontLoadErr ∉ l := by
  intro s
  induction s with
  | nil =>
    intro gc x y startx prev hp
    exact ⟨[], by simp [createStringPathLoop], by simp⟩
  | cons c rest ih =>
    intro gc x y startx prev hp
    simp only [createStringPathLoop]
    split
    · exact ⟨[LogMsg.glyphLoadErr (font.index c)], by simp, by simp⟩
    · next gc1 heq =>
      obtain ⟨g, hg, hgc1⟩ := drawGlyph_some _ _ _ _ _ _ heq
      rcases ih gc1
        ((if hp = true then
            x + fUnitsToFloat64
              (font.kerning (truncQ gc.current.scale) prev (font.index c))
          else x)
          + fUnitsToFloat64
              (font.advance (truncQ gc1.current.scale) (font.index c)))
        y startx (font.index c) true with ⟨l, hl1, hl2⟩
      refine ⟨l, ?_, hl2⟩
      rw [hl1, hgc1]

/-- Helper: a successful `CreateStringPath` call leaves the document handle
and the paint state untouched. -/
theorem createStringPath_preserves (gc : GraphicContext) (s : List Char)
    (x y : ℚ) (gc1 : GraphicContext) (w : ℚ)
    (h : gc.createStringPath s x y = some (gc1, w)) :
    gc1.pdf = gc.pdf ∧ gc1.current.fillRule = gc.current.fillRule ∧
    gc1.current.fillColor = gc.current.fillColor ∧
    gc1.current.strokeColor = gc.current.strokeColor := by
  rcases createStringPath_cases gc s x y gc1 w h with ⟨rfl, -, -⟩ | ⟨font, -, hloop⟩
  · exact ⟨rfl, rfl, rfl, rfl⟩
  · have hp := createStringPathLoop_preserves font s gc x y x 0 false
    rw [hloop] at hp
    exact ⟨hp.1, hp.2.2.2.1, hp.2.2.2.2.1, hp.2.2.2.2.2⟩

/-- C6: when every glyph of the string loads, `CreateStringPath` returns
`cursorX - startX`: the sum over the glyphs of the converted advance width
plus, for every consecutive pair, the converted kerning adjustment; for the
empty string it returns `0` and leaves the context unchanged (no path
segments emitted). -/
theorem createStringPath_advance (gc : GraphicContext) (font : Font)
    (s : List Char) (x y : ℚ)
    (hf : gc.current.font = some font)
    (hl : ∀ a ∈ s, (font.load (truncQ gc.current.scale) (font.index a)).isSome
      = true) :
    (gc.createStringPath s x y).map Prod.snd
      = some (stringAdvance font (truncQ gc.current.scale) none s)
    ∧ gc.createStringPath [] x y = some (gc, 0) := by
  constructor
  · rw [createStringPath_eq_loop gc font s x y hf]
    simp only [Option.map_some']
    rw [createStringPathLoop_success font s gc x y x 0 false hl]
    simp
  · rw [createStringPath_eq_loop gc font [] x y hf]
    simp [createStringPathLoop]

/-- C7: if the glyph of `c` fails to load after the glyphs of `sPre` all
succeeded, `CreateStringPath` logs one glyph-load failure, keeps exactly the
state (and hence the path contours) produced by laying out the prefix alone,
ignores the remaining runes, and returns `startX - cursorX`, i.e. the
negation of the advance consumed so far (prefix advance plus the kerning
into the failing glyph) — negative whenever that advance is positive. -/
theorem createStringPath_abort_on_failure (gc gcPre : GraphicContext)
    (font : Font) (sPre sPost : List Char) (c : Char) (x y wPre : ℚ)
    (hf : gc.current.font = some font)
    (hl : ∀ a ∈ sPre, (font.load (truncQ gc.current.scale) (font.index a)).isSome
      = true)
    (hpre : gc.createStringPath sPre x y = some (gcPre, wPre))
    (hfail : font.load (truncQ gc.current.scale) (font.index c) = none) :
    gc.createStringPath (sPre ++ c :: sPost) x y =
      some ({ gcPre with logMsgs := gcPre.logMsgs
                ++ [LogMsg.glyphLoadErr (font.index c)] },
        -(wPre + kernAt font (truncQ gc.current.scale)
            (lastState font none sPre) (font.index c)))
    ∧ (0 < wPre + kernAt font (truncQ gc.current.scale)
          (lastState font none sPre) (font.index c) →
        -(wPre + kernAt font (truncQ gc.current.scale)
            (lastState font none sPre) (font.index c)) < 0) := by
  have hloopPre : createStringPathLoop font sPre gc x y x 0 false
      = (gcPre, wPre) := by
    have h1 := createStringPath_eq_loop gc font sPre x y hf
    rw [hpre] at h1
    exact (Option.some.inj h1).symm
  have hw : wPre = stringAdvance font (truncQ gc.current.scale) none sPre := by
    have h2 := createStringPathLoop_success font sPre gc x y x 0 false hl
    rw [hloopPre] at h2
    simpa using h2
  constructor
  · rw [createStringPath_eq_loop gc font (sPre ++ c :: sPost) x y hf,
      createStringPathLoop_abort font c sPost sPre gc x y x 0 false hl hfail,
      hloopPre, hw]
    simp only [Option.some.injEq, Prod.mk.injEq, Bool.false_eq_true,
      if_false]
    refine ⟨trivial, by ring⟩
  · intro h
    linarith

/-- C10: `loadCurrentFont` returns the current font with a `nil` error even
when no font is assigned, so the font-load failure branch of
`CreateStringPath` is unreachable: an unassigned font is reported as a
successful `0`-width layout on the empty string, and no successful call ever
logs a font-load error. -/
theorem loadCurrentFont_never_fails (gc : GraphicContext) :
    gc.loadCurrentFont = (gc.current.font, none) ∧
    (gc.current.font = none → ∀ x y : ℚ,
      gc.createStringPath [] x y = some (gc, 0)) ∧
    (∀ (s : List Char) (x y : ℚ) (gc2 : GraphicContext) (w : ℚ),
      gc.createStringPath s x y = some (gc2, w) →
      LogMsg.fontLoadErr ∉ gc2.logMsgs.drop gc.logMsgs.length) := by
  refine ⟨rfl, ?_, ?_⟩
  · intro hnone x y
    unfold GraphicContext.createStringPath GraphicContext.loadCurrentFont
    rw [hnone]
  · intro s x y gc2 w h
    rcases createStringPath_cases gc s x y gc2 w h with ⟨rfl, -, -⟩ |
      ⟨font, -, hloop⟩
    · simp [List.drop_length]
    · obtain ⟨l, hl1, hl2⟩ :=
        createStringPathLoop_logs font s gc x y x 0 false
      rw [hloop] at hl1
      have hl3 : gc2.logMsgs = gc.logMsgs ++ l := hl1
      rw [hl3, List.drop_left]
      exact hl2

/-- C6 witness: with `testFont` (advances 10 and 8, converted kerning 2 for
the pair), laying out `AB` returns `20 = 10 + 2 + 8`; the empty string
returns `0` and leaves the context unchanged. -/
theorem createStringPath_advance_witness :
    (testGC.createStringPath [Char.ofNat 65, Char.ofNat 66] 0 0).map Prod.snd
      = some 20
    ∧ testGC.createStringPath [] 0 0 = some (testGC, 0) := by
  have h := createStringPath_advance testGC testFont
    [Char.ofNat 65, Char.ofNat 66] 0 0 rfl (by decide)
  refine ⟨?_, h.2⟩
  rw [h.1]
  have h640 : fUnitsToFloat64 640 = 10 := by
    have := fUnitsToFloat64_eval 640 2560 10 0 (by decide) (by decide)
      (by decide)
    rw [this]
    norm_num
  have h512 : fUnitsToFloat64 512 = 8 := by
    have := fUnitsToFloat64_eval 512 2048 8 0 (by decide) (by decide)
      (by decide)
    rw [this]
    norm_num
  have h128 : fUnitsToFloat64 128 = 2 := by
    have := fUnitsToFloat64_eval 128 512 2 0 (by decide) (by decide)
      (by decide)
    rw [this]
    norm_num
  have hidx65 : (Char.ofNat 65).toNat = 65 := by decide
  have hidx66 : (Char.ofNat 66).toNat = 66 := by decide
  norm_num [stringAdvance, kernAt, testFont, hidx65, hidx66, h640, h512,
    h128]

/-- C7 witness: with `testFont2`, glyph `C` fails to load after the prefix
`AB` has advanced the cursor by `20`, so the call returns `-20`, which is
negative. -/
theorem createStringPath_abort_witness :
    (testGC2.createStringPath
        [Char.ofNat 65, Char.ofNat 66, Char.ofNat 67] 0 0).map Prod.snd
      = some (-20)
    ∧ (-20 : ℚ) < 0 := by
  have h := createStringPath_abort_on_failure testGC2 gcPre2 testFont2
    [Char.ofNat 65, Char.ofNat 66] [] (Char.ofNat 67) 0 0 wPre2 rfl
    (by decide) rfl (by decide)
  have h640 : fUnitsToFloat64 640 = 10 := by
    have := fUnitsToFloat64_eval 640 2560 10 0 (by decide) (by decide)
      (by decide)
    rw [this]
    norm_num
  have h512 : fUnitsToFloat64 512 = 8 := by
    have := fUnitsToFloat64_eval 512 2048 8 0 (by decide) (by decide)
      (by decide)
    rw [this]
    norm_num
  have h128 : fUnitsToFloat64 128 = 2 := by
    have := fUnitsToFloat64_eval 128 512 2 0 (by decide) (by decide)
      (by decide)
    rw [this]
    norm_num
  have hz : fUnitsToFloat64 0 = 0 := by
    have := fUnitsToFloat64_eval 0 0 0 0 (by decide) (by decide) (by decide)
    rw [this]
    norm_num
  have hidx65 : (Char.ofNat 65).toNat = 65 := by decide
  have hidx66 : (Char.ofNat 66).toNat = 66 := by decide
  have hidx67 : (Char.ofNat 67).toNat = 67 := by decide
  have hw20 : wPre2 = 20 := by
    have hwl : wPre2
        = (createStringPathLoop testFont2 [Char.ofNat 65, Char.ofNat 66]
            testGC2 0 0 0 0 false).2 := rfl
    rw [createStringPathLoop_success testFont2 [Char.ofNat 65, Char.ofNat 66]
      testGC2 0 0 0 0 false (by decide)] at hwl
    rw [hwl]
    norm_num [stringAdvance, kernAt, testFont2, hidx65, hidx66, h640, h512,
      h128]
  have hkern : kernAt testFont2 (truncQ testGC2.current.scale)
      (lastState testFont2 none [Char.ofNat 65, Char.ofNat 66])
      (testFont2.index (Char.ofNat 67)) = 0 := by
    norm_num [kernAt, lastState, testFont2, hidx65, hidx66, hidx67, hz]
  rw [hw20, hkern] at h
  have h1 : (testGC2.createStringPath
      [Char.ofNat 65, Char.ofNat 66, Char.ofNat 67] 0 0).map Prod.snd
      = some (-(20 + 0 : ℚ)) := by
    rw [show (testGC2.createStringPath
        [Char.ofNat 65, Char.ofNat 66, Char.ofNat 67] 0 0)
      = testGC2.createStringPath
        ([Char.ofNat 65, Char.ofNat 66] ++ Char.ofNat 67 :: []) 0 0 from rfl,
      h.1]
    rfl
  refine ⟨?_, ?_⟩
  · rw [h1]
    norm_num
  · have h2 := h.2 (by norm_num)
    linarith

/-- C10 witness: the theorem applied to a context with no font assigned —
the load reports no error, the empty layout succeeds with width `0`, and no
font-load failure is logged. -/
theorem loadCurrentFont_never_fails_witness :
    testGCNoFont.loadCurrentFont = (none, none) ∧
    testGCNoFont.createStringPath [] 0 0 = some (testGCNoFont, 0) ∧
    LogMsg.fontLoadErr ∉
      testGCNoFont.logMsgs.drop testGCNoFont.logMsgs.length := by
  have h := loadCurrentFont_never_fails testGCNoFont
  have h2 := h.2.1 rfl 0 0
  exact ⟨h.1, h2, h.2.2 [] 0 0 testGCNoFont 0 h2⟩

/-- Helper: one `draw` call sends the path conversion, an alpha update
exactly when the requested alpha differs from the handle's cached one, and
the draw command, whose effective alpha is the requested one; nothing else
changes. -/
theorem draw_cmds (gc : GraphicContext) (style : String) (alpha : Nat)
    (paths : List PathStorage) :
    (gc.draw style alpha paths).pdf.cmds
      = gc.pdf.cmds ++ [PdfCmd.convertPaths (paths ++ [gc.current.path])]
        ++ (if ((alpha : ℚ) / alphaMax) = gc.pdf.alpha then []
            else [PdfCmd.setAlpha ((alpha : ℚ) / alphaMax) gc.pdf.blendMode])
        ++ [PdfCmd.drawPath style ((alpha : ℚ) / alphaMax)]
    ∧ (gc.draw style alpha paths).current = gc.current
    ∧ (gc.draw style alpha paths).pdf.alpha = (alpha : ℚ) / alphaMax
    ∧ (gc.draw style alpha paths).pdf.blendMode = gc.pdf.blendMode
    ∧ (gc.draw style alpha paths).stack = gc.stack
    ∧ (gc.draw style alpha paths).logMsgs = gc.logMsgs := by
  simp only [GraphicContext.draw, Pdf.emit]
  split_ifs with ha <;>
    simp [ha, List.append_assoc]

/-- Helper: the draw commands appended by one `draw` call are exactly one
`drawPath` with the requested style at the requested alpha. -/
theorem drawPathCmds_draw (gc : GraphicContext) (style : String)
    (alpha : Nat) (paths : List PathStorage) :
    drawPathCmds (gc.draw style alpha paths).pdf.cmds
      = drawPathCmds gc.pdf.cmds
        ++ [PdfCmd.drawPath style ((alpha : ℚ) / alphaMax)] := by
  rw [(draw_cmds gc style alpha paths).1]
  by_cases hc : ((alpha : ℚ) / alphaMax) = gc.pdf.alpha <;>
    simp [hc, drawPathCmds, List.filter_append, isDrawPath]

/-- C2 (code evaluation): `StrokeStringAt` only lays the string out — it
sends nothing to the document handle, in particular it never fills — while
`FillStringAt` on the same input appends exactly one fill draw command.
This contradicts both the claim and the function's own documentation that
a stroked string is filled. -/
theorem strokeStringAt_never_draws (gc : GraphicContext) (s : List Char)
    (x y : ℚ) :
    (∀ (gc1 : GraphicContext) (w : ℚ),
      gc.strokeStringAt s x y = some (gc1, w) → gc1.pdf = gc.pdf) ∧
    (∀ (gc2 : GraphicContext) (w : ℚ),
      gc.fillStringAt s x y = some (gc2, w) →
      drawPathCmds gc2.pdf.cmds
        = drawPathCmds gc.pdf.cmds
          ++ [PdfCmd.drawPath
               ("F" ++ if gc.current.fillRule.useNonZeroWinding then ""
                 else "*")
               ((gc.current.fillColor.a : ℚ) / alphaMax)]) := by
  constructor
  · intro gc1 w h
    exact (createStringPath_preserves gc s x y gc1 w h).1
  · intro gc2 w h
    unfold GraphicContext.fillStringAt at h
    cases hcs : gc.createStringPath s x y with
    | none =>
      rw [hcs] at h
      exact absurd h (by simp)
    | some p =>
      obtain ⟨gcM, wM⟩ := p
      rw [hcs] at h
      have hgc2 : gc2 = gcM.fill [] :=
        (congrArg Prod.fst (Option.some.inj h)).symm
      obtain ⟨hpdf, hrule, hfillc, -⟩ :=
        createStringPath_preserves gc s x y gcM wM hcs
      have hfd : (gcM.fill []).pdf.cmds
          = (gcM.draw
              ("F" ++ if gcM.current.fillRule.useNonZeroWinding then ""
                else "*")
              gcM.current.fillColor.a []).pdf.cmds := rfl
      rw [hgc2]
      unfold drawPathCmds
      rw [hfd]
      have := drawPathCmds_draw gcM
        ("F" ++ if gcM.current.fillRule.useNonZeroWinding then "" else "*")
        gcM.current.fillColor.a []
      unfold drawPathCmds at this
      rw [this, hpdf, hrule, hfillc]

/-- C2 witness: stroking the string `A` with `testGC` leaves the document
handle untouched, while filling the same string issues one fill draw
command at alpha `1`. -/
theorem strokeStringAt_never_draws_witness :
    strokeRes.1.pdf = testGC.pdf ∧
    drawPathCmds fillRes.1.pdf.cmds = [PdfCmd.drawPath ("F" ++ "") 1] := by
  have h := strokeStringAt_never_draws testGC [Char.ofNat 65] 0 0
  refine ⟨h.1 strokeRes.1 strokeRes.2 rfl, ?_⟩
  have h2 := h.2 fillRes.1 fillRes.2 rfl
  rw [h2]
  norm_num [drawPathCmds, testGC, testContext, testColor, alphaMax,
    FillRule.useNonZeroWinding]

/-- C3: `FillStroke` issues exactly one combined fill+stroke draw command
(with the even-odd suffix when the fill rule is not nonzero-winding) at the
common alpha when the stroke alpha equals the fill alpha, and exactly two
draw commands — fill first, then stroke, each at its own alpha — when they
differ. -/
theorem fillStroke_draw_calls (gc : GraphicContext)
    (paths : List PathStorage) :
    drawPathCmds (gc.fillStroke paths).pdf.cmds
      = drawPathCmds gc.pdf.cmds
        ++ (if gc.current.strokeColor.a = gc.current.fillColor.a then
              [PdfCmd.drawPath
                ("FD" ++ if gc.current.fillRule.useNonZeroWinding then ""
                  else "*")
                ((gc.current.fillColor.a : ℚ) / alphaMax)]
            else
              [PdfCmd.drawPath
                ("F" ++ if gc.current.fillRule.useNonZeroWinding then ""
                  else "*")
                ((gc.current.fillColor.a : ℚ) / alphaMax),
               PdfCmd.drawPath "S"
                ((gc.current.strokeColor.a : ℚ) / alphaMax)]) := by
  by_cases ha : gc.current.strokeColor.a = gc.current.fillColor.a
  · have hcm : (gc.fillStroke paths).pdf.cmds
        = (gc.draw
            ("FD" ++ if gc.current.fillRule.useNonZeroWinding then ""
              else "*")
            gc.current.fillColor.a paths).pdf.cmds := by
      simp only [GraphicContext.fillStroke]
      rw [if_pos ha]
    unfold drawPathCmds
    rw [hcm]
    have h1 := drawPathCmds_draw gc
      ("FD" ++ if gc.current.fillRule.useNonZeroWinding then "" else "*")
      gc.current.fillColor.a paths
    unfold drawPathCmds at h1
    rw [h1, if_pos ha]
  · have hcm : (gc.fillStroke paths).pdf.cmds
        = ((gc.draw
            ("F" ++ if gc.current.fillRule.useNonZeroWinding then ""
              else "*")
            gc.current.fillColor.a paths).draw "S"
            gc.current.strokeColor.a paths).pdf.cmds := by
      simp only [GraphicContext.fillStroke]
      rw [if_neg ha]
    unfold drawPathCmds
    rw [hcm]
    have h2 := drawPathCmds_draw
      (gc.draw
        ("F" ++ if gc.current.fillRule.useNonZeroWinding then "" else "*")
        gc.current.fillColor.a paths)
      "S" gc.current.strokeColor.a paths
    have h1 := drawPathCmds_draw gc
      ("F" ++ if gc.current.fillRule.useNonZeroWinding then "" else "*")
      gc.current.fillColor.a paths
    unfold drawPathCmds at h1 h2
    rw [h2, h1, if_neg ha]
    simp [List.append_assoc]

/-- C8: after `Fill`, `Stroke`, or `FillStroke` — whatever paths were passed
and whatever the paint state — the current path is reset to a fresh empty
path, so an immediately following draw call converts only its own passed
paths plus the empty current path. -/
theorem draw_ops_reset_path (gc : GraphicContext)
    (paths : List PathStorage) :
    (gc.fill paths).current.path = NewPathStorage ∧
    (gc.stroke paths).current.path = NewPathStorage ∧
    (gc.fillStroke paths).current.path = NewPathStorage ∧
    ∀ paths2 : List PathStorage,
      (((gc.fill paths).fill paths2).pdf.cmds.drop
          (gc.fill paths).pdf.cmds.length).head?
        = some (PdfCmd.convertPaths (paths2 ++ [NewPathStorage])) := by
  refine ⟨rfl, rfl, rfl, ?_⟩
  intro paths2
  have hfd : ((gc.fill paths).fill paths2).pdf.cmds
      = ((gc.fill paths).draw
          ("F" ++ if (gc.fill paths).current.fillRule.useNonZeroWinding
            then "" else "*")
          (gc.fill paths).current.fillColor.a paths2).pdf.cmds := rfl
  rw [hfd, (draw_cmds _ _ _ _).1]
  have hpath : (gc.fill paths).current.path = NewPathStorage := rfl
  rw [hpath]
  simp [List.append_assoc, List.drop_left]

/-- C9: `Save` immediately followed by `Restore` with no intervening
mutation leaves stroke color, fill color, line width, line cap, line join
and fill rule equal to their pre-Save values, re-applying them to the
document handle through the listed setter commands; font identity, the dash
pattern and the in-progress path come back with the popped state but are
not re-applied to the document handle — no font or dash command occurs in
the emitted command list. -/
theorem save_restore_roundtrip (gc : GraphicContext) :
    (gc.save.restore).current.strokeColor = gc.current.strokeColor ∧
    (gc.save.restore).current.fillColor = gc.current.fillColor ∧
    (gc.save.restore).current.lineWidth = gc.current.lineWidth ∧
    (gc.save.restore).current.cap = gc.current.cap ∧
    (gc.save.restore).current.join = gc.current.join ∧
    (gc.save.restore).current.fillRule = gc.current.fillRule ∧
    (gc.save.restore).current.font = gc.current.font ∧
    (gc.save.restore).current.dash = gc.current.dash ∧
    (gc.save.restore).current.path = gc.current.path ∧
    (gc.save.restore).pdf.cmds = gc.pdf.cmds
      ++ [PdfCmd.transformBegin, PdfCmd.transformEnd,
          PdfCmd.setLineWidth gc.current.lineWidth,
          PdfCmd.setDrawColor (rgb gc.current.strokeColor),
          PdfCmd.setFillColor (rgb gc.current.fillColor),
          PdfCmd.setTextColor (rgb gc.current.fillColor),
          PdfCmd.setLineCapStyle (caps gc.current.cap),
          PdfCmd.setLineJoinStyle (joins gc.current.join)] := by
  simp only [GraphicContext.save, GraphicContext.restore,
    GraphicContext.setFontSize, GraphicContext.recalc,
    GraphicContext.setLineWidth, GraphicContext.setStrokeColor,
    GraphicContext.setFillColor, GraphicContext.setFillRule,
    GraphicContext.setLineCap, GraphicContext.setLineJoin, Pdf.emit]
  simp [List.append_assoc]
